import Mathlib

/-
Verification of the normalizing-flow core (`src/_normflowcore.py`) and the
masking utilities (`src/mask/mask.py`).

The embedding works over real numbers: a torch tensor of log-probabilities is
modelled as a `List ℝ`, and per-sample batch operations become `List.map` /
`List.zipWith`.  Stateful objects (the Fitter's train history and checkpoint
dictionary) are modelled by explicit state passing.  External collaborators
that live outside the embedded files (the jackknife log-Z estimator from
`lib.combo`, the MCMC acceptance-rate estimator, and the distributed
gather) are abstracted as function parameters, exactly as the spec's §6
describes their interfaces; no claim depends on their values.
-/

namespace Normflow

noncomputable section

/-- Batch mean, as computed by torch `.mean()`: sum divided by length. -/
def mean (l : List ℝ) : ℝ := l.sum / l.length

/-- Unbiased sample variance, as computed by torch `.var()` with its default
correction of 1 (divide by `N - 1`).  For fewer than two elements the degrees
of freedom are non-positive and torch produces NaN; the absence of a real
value is modelled as `none`. -/
def torchVar (l : List ℝ) : Option ℝ :=
  if 2 ≤ l.length then
    some ((l.map (fun x => (x - mean l) ^ 2)).sum / ((l.length : ℝ) - 1))
  else
    none

/-- Unbiased sample standard deviation, as computed by torch `.std()`.
Only used for the `(mean, std)` pair stored in `train_history.logqp`; no claim
depends on its value, so the degenerate single-element case is left as the
junk value `Real.sqrt (0 / 0)`. -/
def torchStd (l : List ℝ) : ℝ :=
  Real.sqrt ((l.map (fun x => (x - mean l) ^ 2)).sum / ((l.length : ℝ) - 1))

/-- Log-sum-exp of a batch, the mathematical value computed by
`torch.logsumexp(v, dim=0)`. -/
def logsumexp (l : List ℝ) : ℝ := Real.log ((l.map Real.exp).sum)

/-- Model of `Model` from `_normflowcore.py`: the composition of a prior, an
invertible network tracking its log-Jacobian, and an action.  The prior's
`sample_` is modelled as a function of the batch size (its randomness is
irrelevant to the claims, which quantify over its outputs); the network is
modelled per sample, batch application being `List.map`. -/
structure Model (α β : Type) where
  prior_sample_ : Nat → List α × List ℝ
  prior_log_prob : α → ℝ
  net_forward : α → β × ℝ
  net_reverse : β → α × ℝ
  action : β → ℝ

/-- Model of `Posterior.sample_`: draw `(x, logr)` from the prior, optionally
preprocess, push through the network to get `(y, logj)`, and return
`(y, logq)` with `logq = logr - logj` (elementwise). -/
def Posterior.sample_ {α β : Type} (m : Model α β) (batch_size : Nat)
    (preprocess_func : Option (List α × List ℝ → List α × List ℝ)) :
    List β × List ℝ :=
  let xr0 := m.prior_sample_ batch_size
  let xr := match preprocess_func with
    | some f => f xr0
    | none => xr0
  let y := xr.1.map (fun a => (m.net_forward a).1)
  let logj := xr.1.map (fun a => (m.net_forward a).2)
  (y, List.zipWith (fun a b => a - b) xr.2 logj)

/-- Model of `Posterior.sample`: return only the samples from `sample_`. -/
def Posterior.sample {α β : Type} (m : Model α β) (batch_size : Nat)
    (preprocess_func : Option (List α × List ℝ → List α × List ℝ)) : List β :=
  (Posterior.sample_ m batch_size preprocess_func).1

/-- Model of `Posterior.sample__`: extend `sample_` with
`logp = -action(y)` (elementwise). -/
def Posterior.sample__ {α β : Type} (m : Model α β) (batch_size : Nat)
    (preprocess_func : Option (List α × List ℝ → List α × List ℝ)) :
    List β × List ℝ × List ℝ :=
  let s := Posterior.sample_ m batch_size preprocess_func
  (s.1, s.2, s.1.map (fun b => -(m.action b)))

/-- Model of `Posterior.log_prob`: apply the network's reverse to get
`(x, minus_logj)`, evaluate the prior's `log_prob` on `x`, and return
`logr + minus_logj` (elementwise). -/
def Posterior.log_prob {α β : Type} (m : Model α β) (y : List β) : List ℝ :=
  let x := y.map (fun b => (m.net_reverse b).1)
  let minus_logj := y.map (fun b => (m.net_reverse b).2)
  List.zipWith (fun a b => a + b) (x.map m.prior_log_prob) minus_logj

/-- Model of `Fitter.calc_kl_mean`: mean of `logq - logp`. -/
def Fitter.calc_kl_mean (logq logp : List ℝ) : ℝ :=
  mean (List.zipWith (fun a b => a - b) logq logp)

/-- Model of `Fitter.calc_kl_var`: torch variance of `logq - logp` (with
torch's default unbiased correction, hence `none` for batches of fewer than
two elements, where torch yields NaN). -/
def Fitter.calc_kl_var (logq logp : List ℝ) : Option ℝ :=
  torchVar (List.zipWith (fun a b => a - b) logq logp)

/-- Model of `Fitter.calc_corrcoef`: Pearson correlation coefficient of the
two batches, the mathematical value of `torch.corrcoef(stack([logq, logp]))[0, 1]`.
No claim depends on its value. -/
def Fitter.calc_corrcoef (logq logp : List ℝ) : ℝ :=
  (List.zipWith (fun a b => (a - mean logq) * (b - mean logp)) logq logp).sum /
    (Real.sqrt ((logq.map (fun a => (a - mean logq) ^ 2)).sum) *
     Real.sqrt ((logp.map (fun b => (b - mean logp) ^ 2)).sum))

/-- Model of `Fitter.calc_ess`: with `logqp = logq - logp`,
`log_ess = 2*logsumexp(-logqp) - logsumexp(-2*logqp)` and
`ess = exp(log_ess) / len(logqp)`. -/
def Fitter.calc_ess (logq logp : List ℝ) : ℝ :=
  let logqp := List.zipWith (fun a b => a - b) logq logp
  let log_ess := 2 * logsumexp (logqp.map (fun t => -t))
      - logsumexp (logqp.map (fun t => -(2 * t)))
  Real.exp log_ess / logqp.length

/-- Model of the `train_history` dictionary of `Fitter.__init__`: six series,
one per statistic.  `logqp`, `logz` and `accept_rate` store `(mean, std)`
pairs as in the source. -/
structure TrainHistory where
  loss : List ℝ
  logqp : List (ℝ × ℝ)
  logz : List (ℝ × ℝ)
  ess : List ℝ
  rho : List ℝ
  accept_rate : List (ℝ × ℝ)

/-- Initial train history from `Fitter.__init__`: six empty series. -/
def TrainHistory.init : TrainHistory :=
  { loss := [], logqp := [], logz := [], ess := [], rho := [], accept_rate := [] }

/-- Model of the `checkpoint_dict` of `Fitter.__init__`. -/
structure CheckpointDict where
  display : Bool
  print_stride : Nat
  print_batch_size : Nat
  snapshot_path : Option String
  epochs_run : Nat

/-- Initial checkpoint dictionary from `Fitter.__init__`. -/
def Fitter.init_checkpoint_dict : CheckpointDict :=
  { display := false, print_stride := 10, print_batch_size := 1024,
    snapshot_path := none, epochs_run := 0 }

/-- Model of a snapshot file as written by `Fitter._save_snapshot`:
the network state and the cumulative epoch count, keyed `MODEL_STATE` and
`EPOCHS_RUN` in the source. -/
structure Snapshot (σ : Type) where
  MODEL_STATE : σ
  EPOCHS_RUN : Nat

/-- Model of `Fitter._save_snapshot`: the stored cumulative count is
`epoch + checkpoint_dict['epochs_run']`.  The file path naming is an external
side effect and is not modelled. -/
def Fitter._save_snapshot {σ : Type} (cfg : CheckpointDict) (model_state : σ)
    (epoch : Nat) : Snapshot σ :=
  { MODEL_STATE := model_state, EPOCHS_RUN := epoch + cfg.epochs_run }

/-- Model of `Fitter._load_snapshot`: restores the network state and sets
`checkpoint_dict['epochs_run']` to the stored `EPOCHS_RUN`. -/
def Fitter._load_snapshot {σ : Type} (cfg : CheckpointDict)
    (snapshot : Snapshot σ) : CheckpointDict × σ :=
  ({ cfg with epochs_run := snapshot.EPOCHS_RUN }, snapshot.MODEL_STATE)

/-- Epoch number shown by `Fitter.print_fit_status`:
`epoch += self.checkpoint_dict['epochs_run']`. -/
def Fitter.printed_epoch (cfg : CheckpointDict) (epoch : Nat) : Nat :=
  epoch + cfg.epochs_run

/-- Model of Python `dict.update` (shallow merge): keys present in the
override win, all other keys keep their previous values.  A dictionary is
modelled as a partial map. -/
def dict_update {K V : Type} (d override : K → Option V) : K → Option V :=
  fun k => match override k with
    | some v => some v
    | none => d k

/-- Initial hyperparameter dictionary from `Fitter.__init__`:
`lr = 0.001`, `weight_decay = 0.01`. -/
def Fitter.init_hyperparam : String → Option ℝ :=
  fun k => if k = "lr" then some 0.001
    else if k = "weight_decay" then some 0.01
    else none

/-- External collaborators used by `Fitter._append_to_train_history`:
the jackknife log-Z estimator (`lib.combo.estimate_logz`) and the MCMC
acceptance-rate estimator, both returning `(mean, std)` pairs per the spec's
§6.  Their code is outside the embedded files and no claim depends on their
values, so they stay abstract. -/
structure Estimators where
  estimate_logz : List ℝ → ℝ × ℝ
  estimate_accept_rate : List ℝ → ℝ × ℝ

/-- Distributed environment seen by `Fitter.checkpoint`: the device count
`nranks`, and the evaluation sampler, which models
`posterior.sample__(batch_size)` followed by `all_gather_into_tensor` of
`logq` and `logp` across ranks (the gathered pair is what rank 0 consumes). -/
structure EvalEnv where
  nranks : Nat
  sampler : Nat → List ℝ × List ℝ

/-- Model of `Fitter._append_to_train_history`: compute `logqp = logq - logp`
and append one entry to each of the five evaluation series.  The ESS entry is
`calc_ess(logqp, 0)` with the scalar `0` broadcast across the batch, modelled
as a list of zeros. -/
def Fitter._append_to_train_history (est : Estimators) (h : TrainHistory)
    (logq logp : List ℝ) : TrainHistory :=
  let logqp := List.zipWith (fun a b => a - b) logq logp
  { h with
    logqp := h.logqp ++ [(mean logqp, torchStd logqp)],
    logz := h.logz ++ [est.estimate_logz logqp],
    ess := h.ess ++ [Fitter.calc_ess logqp (List.replicate logqp.length 0)],
    rho := h.rho ++ [Fitter.calc_corrcoef logq logp],
    accept_rate := h.accept_rate ++ [est.estimate_accept_rate logqp] }

/-- Condition under which `Fitter.checkpoint` performs the evaluation step:
`epoch == 1 or (epoch % print_stride == 0)`. -/
abbrev is_eval_epoch (cfg : CheckpointDict) (epoch : Nat) : Prop :=
  epoch = 1 ∨ epoch % cfg.print_stride = 0

/-- Model of `Fitter.checkpoint` as seen on the coordinating rank (rank 0):
always append the epoch's training loss; then, on an evaluation epoch, draw
the evaluation batch of size `print_batch_size // nranks` (Python integer
floor division, i.e. `Nat` division), gather it, and append the statistics.
Snapshot saving only writes a file and does not touch the history, so it is
not part of this state transition. -/
def Fitter.checkpoint (cfg : CheckpointDict) (env : EvalEnv) (est : Estimators)
    (h : TrainHistory) (epoch : Nat) (loss : ℝ) : TrainHistory :=
  let h1 : TrainHistory := { h with loss := h.loss ++ [loss] }
  if is_eval_epoch cfg epoch then
    Fitter._append_to_train_history est h1
      (env.sampler (cfg.print_batch_size / env.nranks)).1
      (env.sampler (cfg.print_batch_size / env.nranks)).2
  else
    h1

/-- Model of the per-epoch loop of `Fitter._train` restricted to its effect on
`train_history`: epochs run from 1 to `n_epochs`, each calling `checkpoint`
with that epoch's training loss. -/
def Fitter.run_training (cfg : CheckpointDict) (env : EvalEnv)
    (est : Estimators) (losses : Nat → ℝ) : Nat → TrainHistory
  | 0 => TrainHistory.init
  | n + 1 =>
      Fitter.checkpoint cfg env est
        (Fitter.run_training cfg env est losses n) (n + 1) (losses (n + 1))

/-- Number of evaluation epochs among epochs `1..n`. -/
def num_eval_epochs (cfg : CheckpointDict) : Nat → Nat
  | 0 => 0
  | n + 1 => num_eval_epochs cfg n + if is_eval_epoch cfg (n + 1) then 1 else 0

/-- Model of `Mask` from `mask.py`: a tensor of mask entries over an abstract
index space `ι`, applied elementwise. -/
structure Mask (ι : Type) where
  _mask : ι → ℝ

/-- Complementary mask registered by `Mask.__init__`: `1 - mask`. -/
def Mask._c_mask {ι : Type} (m : Mask ι) : ι → ℝ := fun i => 1 - m._mask i

/-- Model of `Mask.split`: `( _mask * x, _c_mask * x )`. -/
def Mask.split {ι : Type} (m : Mask ι) (x : ι → ℝ) : (ι → ℝ) × (ι → ℝ) :=
  (fun i => m._mask i * x i, fun i => m._c_mask i * x i)

/-- Model of `Mask.cat`: elementwise sum of the two channels. -/
def Mask.cat {ι : Type} (_m : Mask ι) (x_0 x_1 : ι → ℝ) : ι → ℝ :=
  fun i => x_0 i + x_1 i

/-- Model of `EvenOddMask.make_mask`: entry at multi-index `ind` is
`(1 - parity + sum(ind)) % 2`, or with `exclude_mu` given,
`(1 - parity + sum(ind) - ind[exclude_mu]) % 2`; Python `%` on integers with
positive modulus agrees with `Int.emod`.  The tensor over the shape is
modelled as the function of the multi-index. -/
def EvenOddMask.make_mask (parity : Int) (exclude_mu : Option Nat) :
    List Nat → ℝ :=
  fun ind => ((match exclude_mu with
    | none => (1 - parity + (ind.sum : Int)) % 2
    | some mu => (1 - parity + (ind.sum : Int) - (ind.getD mu 0 : Int)) % 2) : Int)

/-- Model of `AlongAxesEvenOddMask.make_mask`: entry at multi-index `ind` is
`(1 - parity + ind[mu]) % 2`. -/
def AlongAxesEvenOddMask.make_mask (parity : Int) (mu : Nat) : List Nat → ℝ :=
  fun ind => (((1 - parity + (ind.getD mu 0 : Int)) % 2 : Int) : ℝ)

/-- Identity-flow instance of `Model` used to witness the hypotheses of the
round-trip claims: a prior of zeros with zero log-density, the identity
network with zero log-Jacobian, and the zero action. -/
def idModel : Model ℝ ℝ :=
  { prior_sample_ := fun n => (List.replicate n 0, List.replicate n 0),
    prior_log_prob := fun _ => 0,
    net_forward := fun a => (a, 0),
    net_reverse := fun b => (b, 0),
    action := fun _ => 0 }

/-- Concrete checkpoint configuration with `print_stride = 3`, used to
exhibit a run in which an epoch is not an evaluation epoch. -/
def cfg0 : CheckpointDict :=
  { display := false, print_stride := 3, print_batch_size := 1024,
    snapshot_path := none, epochs_run := 0 }

/-- Concrete single-device environment whose sampler returns zero batches of
the requested size. -/
def env0 : EvalEnv :=
  { nranks := 1, sampler := fun n => (List.replicate n 0, List.replicate n 0) }

/-- Concrete environment with more devices (2048) than the default
print-batch-size (1024). -/
def env1 : EvalEnv :=
  { nranks := 2048, sampler := fun n => (List.replicate n 0, List.replicate n 0) }

/-- Concrete external estimators returning zeros. -/
def est0 : Estimators :=
  { estimate_logz := fun _ => (0, 0), estimate_accept_rate := fun _ => (0, 0) }

/-
Theorems.
-/

/-- C5: for every batch size `n`, `Posterior.sample_(n)` (no preprocess
function) returns `(y, logq)` with `(x, logr)` drawn from the prior, `y` the
forward image of `x` under the flow network, and `logq = logr - logj`;
`sample__(n)` returns `(y, logq, -action(y))` with `(y, logq)` exactly the
result of `sample_(n)`; and `sample(n)` returns exactly the first component
of `sample_(n)`. -/
theorem Posterior.sample_spec {α β : Type} (m : Model α β) (n : Nat) :
    Posterior.sample m n none = (Posterior.sample_ m n none).1
    ∧ Posterior.sample_ m n none =
        ((m.prior_sample_ n).1.map (fun a => (m.net_forward a).1),
         List.zipWith (fun a b => a - b) (m.prior_sample_ n).2
           ((m.prior_sample_ n).1.map (fun a => (m.net_forward a).2)))
    ∧ Posterior.sample__ m n none =
        ((Posterior.sample_ m n none).1, (Posterior.sample_ m n none).2,
         (Posterior.sample_ m n none).1.map (fun b => -(m.action b))) :=
  ⟨rfl, rfl, rfl⟩

/-- C4: a snapshot saved at epoch `e` stores the cumulative count
`e + epochs_run`; loading a snapshot sets `epochs_run` to the stored count;
hence saving at epoch `E1` from a fresh Fitter and, after resuming from that
snapshot, saving at epoch `E2`, stores `E1 + E2`; and after the resume every
status line printed at an epoch `e ≥ 1` shows an epoch number `≥ E1 + 1`. -/
theorem Fitter.epochs_run_accumulates {σ : Type} (s1 s2 : σ) (E1 E2 : Nat) :
    (∀ (cfg : CheckpointDict) (s : σ) (e : Nat),
        (Fitter._save_snapshot cfg s e).EPOCHS_RUN = e + cfg.epochs_run)
    ∧ (∀ (cfg : CheckpointDict) (snap : Snapshot σ),
        (Fitter._load_snapshot cfg snap).1.epochs_run = snap.EPOCHS_RUN)
    ∧ (Fitter._save_snapshot
        (Fitter._load_snapshot Fitter.init_checkpoint_dict
          (Fitter._save_snapshot Fitter.init_checkpoint_dict s1 E1)).1
        s2 E2).EPOCHS_RUN = E1 + E2
    ∧ (∀ e : Nat, 1 ≤ e →
        E1 + 1 ≤ Fitter.printed_epoch
          (Fitter._load_snapshot Fitter.init_checkpoint_dict
            (Fitter._save_snapshot Fitter.init_checkpoint_dict s1 E1)).1 e) := by
  refine ⟨fun _ _ _ => rfl, fun _ _ => rfl, ?_, ?_⟩
  · simp [Fitter._save_snapshot, Fitter._load_snapshot,
      Fitter.init_checkpoint_dict]
    omega
  · intro e he
    simp [Fitter.printed_epoch, Fitter._save_snapshot, Fitter._load_snapshot,
      Fitter.init_checkpoint_dict]
    omega

/-- Witness for C4 at `E1 = 3`, `E2 = 2`, `e = 1`. -/
theorem epochs_run_accumulates_witness :
    (Fitter._save_snapshot
      (Fitter._load_snapshot Fitter.init_checkpoint_dict
        (Fitter._save_snapshot Fitter.init_checkpoint_dict () 3)).1
      () 2).EPOCHS_RUN = 3 + 2
    ∧ 3 + 1 ≤ Fitter.printed_epoch
        (Fitter._load_snapshot Fitter.init_checkpoint_dict
          (Fitter._save_snapshot Fitter.init_checkpoint_dict () 3)).1 1 :=
  ⟨(Fitter.epochs_run_accumulates () () 3 2).2.2.1,
   (Fitter.epochs_run_accumulates () () 3 2).2.2.2 1 (by decide)⟩

/-- C7: hyperparameter overrides merge and persist across fit invocations:
after two calls merging `h1` then `h2` into the initial hyperparameters, a
key set by `h1` but absent from `h2` keeps its `h1` value, and a key supplied
by neither keeps its initial default. -/
theorem Fitter.hyperparam_merge (h1 h2 : String → Option ℝ) (k : String) :
    (∀ v : ℝ, h2 k = none → h1 k = some v →
      dict_update (dict_update Fitter.init_hyperparam h1) h2 k = some v)
    ∧ (h1 k = none → h2 k = none →
      dict_update (dict_update Fitter.init_hyperparam h1) h2 k
        = Fitter.init_hyperparam k) := by
  constructor
  · intro v e2 e1
    simp [dict_update, e1, e2]
  · intro e1 e2
    simp [dict_update, e1, e2]

/-- Witness for C7: a learning rate set in call 1 and not in call 2 keeps
its call-1 value. -/
theorem hyperparam_merge_witness :
    dict_update (dict_update Fitter.init_hyperparam
        (fun s => if s = "lr" then some (0.1 : ℝ) else none))
      (fun _ => none) "lr" = some (0.1 : ℝ) :=
  (Fitter.hyperparam_merge (fun s => if s = "lr" then some (0.1 : ℝ) else none)
    (fun _ => none) "lr").1 0.1 rfl (by simp)

/-- Entries of `EvenOddMask.make_mask` are always 0 or 1. -/
lemma EvenOddMask.make_mask_mem (parity : Int) (exclude_mu : Option Nat)
    (ind : List Nat) :
    EvenOddMask.make_mask parity exclude_mu ind = 0
    ∨ EvenOddMask.make_mask parity exclude_mu ind = 1 := by
  unfold EvenOddMask.make_mask
  cases exclude_mu with
  | none =>
      rcases (show (1 - parity + (ind.sum : Int)) % 2 = 0
          ∨ (1 - parity + (ind.sum : Int)) % 2 = 1 by omega) with h | h
      · exact Or.inl (by rw [h, Int.cast_zero])
      · exact Or.inr (by rw [h, Int.cast_one])
  | some mu =>
      dsimp only
      rcases (show (1 - parity + (ind.sum : Int) - (ind.getD mu 0 : Int)) % 2 = 0
          ∨ (1 - parity + (ind.sum : Int) - (ind.getD mu 0 : Int)) % 2 = 1 by
            omega) with h | h
      · exact Or.inl (by rw [h, Int.cast_zero])
      · exact Or.inr (by rw [h, Int.cast_one])

/-- C10: for every mask whose entries lie in {0, 1} (as `EvenOddMask.make_mask`
produces) and every tensor `x`, `cat(split(x))` recovers `x`: since
`_c_mask = 1 - _mask`, `m*x + (1-m)*x = x`, so split followed by cat is the
identity. -/
theorem Mask.cat_split_id {ι : Type} (m : Mask ι) (x : ι → ℝ)
    (_h : ∀ i, m._mask i = 0 ∨ m._mask i = 1) :
    Mask.cat m (Mask.split m x).1 (Mask.split m x).2 = x := by
  funext i
  show m._mask i * x i + (1 - m._mask i) * x i = x i
  ring

/-- Witness for C10 on the even-odd mask of parity 0. -/
theorem mask_cat_split_id_witness :
    Mask.cat ⟨EvenOddMask.make_mask 0 none⟩
      (Mask.split ⟨EvenOddMask.make_mask 0 none⟩ (fun ind => (ind.sum : ℝ))).1
      (Mask.split ⟨EvenOddMask.make_mask 0 none⟩ (fun ind => (ind.sum : ℝ))).2
      = (fun ind => (ind.sum : ℝ)) :=
  Mask.cat_split_id ⟨EvenOddMask.make_mask 0 none⟩ (fun ind => (ind.sum : ℝ))
    (fun i => EvenOddMask.make_mask_mem 0 none i)

/-- Unfolding of `Posterior.sample_` with no preprocess function. -/
lemma Posterior.sample_none_eq {α β : Type} (m : Model α β) (n : Nat) :
    Posterior.sample_ m n none =
      ((m.prior_sample_ n).1.map (fun a => (m.net_forward a).1),
       List.zipWith (fun a b => a - b) (m.prior_sample_ n).2
         ((m.prior_sample_ n).1.map (fun a => (m.net_forward a).2))) := rfl

/-- Unfolding of `Posterior.log_prob`. -/
lemma Posterior.log_prob_eq {α β : Type} (m : Model α β) (y : List β) :
    Posterior.log_prob m y =
      List.zipWith (fun a b => a + b)
        ((y.map (fun b => (m.net_reverse b).1)).map m.prior_log_prob)
        (y.map (fun b => (m.net_reverse b).2)) := rfl

/-- C1: for every batch size `n ≥ 1`, if the network's reverse exactly
inverts its forward (`reverse (apply x)` returns `x` together with the
negated log-Jacobian) and the prior's `log_prob` agrees with the log-density
returned by its `sample_`, then `Posterior.log_prob` of the samples returned
by `Posterior.sample_(n)` (no preprocess function) equals the `logq` that
`sample_` returned. -/
theorem Posterior.log_prob_of_sample_ {α β : Type} (m : Model α β) (n : Nat)
    (hrev : ∀ a : α,
      m.net_reverse (m.net_forward a).1 = (a, -(m.net_forward a).2))
    (hprior : (m.prior_sample_ n).2
      = (m.prior_sample_ n).1.map m.prior_log_prob)
    (_hn : 1 ≤ n) :
    Posterior.log_prob m (Posterior.sample_ m n none).1
      = (Posterior.sample_ m n none).2 := by
  rw [Posterior.sample_none_eq]
  dsimp only
  rw [Posterior.log_prob_eq, hprior]
  have e1 : (((m.prior_sample_ n).1.map (fun a => (m.net_forward a).1)).map
      (fun b => (m.net_reverse b).1)) = (m.prior_sample_ n).1 := by
    rw [List.map_map]
    have hpt : ∀ a ∈ (m.prior_sample_ n).1,
        ((fun b => (m.net_reverse b).1) ∘ fun a => (m.net_forward a).1) a
          = id a := fun a _ => by simp [hrev a]
    rw [List.map_congr_left hpt, List.map_id]
  have e2 : (((m.prior_sample_ n).1.map (fun a => (m.net_forward a).1)).map
      (fun b => (m.net_reverse b).2))
      = (m.prior_sample_ n).1.map (fun a => -(m.net_forward a).2) := by
    rw [List.map_map]
    exact List.map_congr_left (fun a _ => by simp [hrev a])
  rw [e1, e2]
  rw [List.zipWith_map (fun a b => a + b) m.prior_log_prob
      (fun a => -(m.net_forward a).2) (m.prior_sample_ n).1 (m.prior_sample_ n).1,
    List.zipWith_map (fun a b => a - b) m.prior_log_prob
      (fun a => (m.net_forward a).2) (m.prior_sample_ n).1 (m.prior_sample_ n).1,
    List.zipWith_same, List.zipWith_same]
  exact List.map_congr_left (fun a _ => by ring)

/-- Witness for C1 on the identity flow with a zero-density prior at batch
size 1. -/
theorem log_prob_of_sample_witness :
    Posterior.log_prob idModel (Posterior.sample_ idModel 1 none).1
      = (Posterior.sample_ idModel 1 none).2 :=
  Posterior.log_prob_of_sample_ idModel 1
    (fun a => by simp [idModel])
    (by simp [idModel, List.map_replicate])
    (by decide)

/-- Sum of a mapped list as a sum over its positions. -/
lemma sum_map_get (l : List ℝ) (f : ℝ → ℝ) :
    (l.map f).sum = ∑ i : Fin l.length, f (l.get i) := by
  conv_lhs => rw [← List.ofFn_get l]
  rw [List.map_ofFn, List.sum_ofFn]
  simp [Function.comp]

/-- Cauchy-Schwarz specialisation: the squared sum of `N` reals is at most
`N` times the sum of squares, with equality exactly for constant families. -/
lemma sq_sum_le_card_mul_sum_sq {N : ℕ} (hN : 0 < N) (w : Fin N → ℝ) :
    ((∑ i, w i) ^ 2 ≤ (N : ℝ) * ∑ i, w i ^ 2)
    ∧ ((∑ i, w i) ^ 2 = (N : ℝ) * ∑ i, w i ^ 2 ↔ ∀ i j, w i = w j) := by
  have hNR : (0 : ℝ) < N := by exact_mod_cast hN
  have hN0 : (N : ℝ) ≠ 0 := ne_of_gt hNR
  have key : (N : ℝ) * ∑ i, (w i - (∑ j, w j) / N) ^ 2
      = (N : ℝ) * (∑ i, w i ^ 2) - (∑ i, w i) ^ 2 := by
    have expand : ∀ i : Fin N, (w i - (∑ j, w j) / N) ^ 2
        = w i ^ 2 - 2 * ((∑ j, w j) / N) * w i + ((∑ j, w j) / N) ^ 2 :=
      fun i => by ring
    rw [Finset.sum_congr rfl (fun i _ => expand i), Finset.sum_add_distrib,
      Finset.sum_sub_distrib, ← Finset.mul_sum, Finset.sum_const,
      Finset.card_univ, Fintype.card_fin, nsmul_eq_mul]
    field_simp
    ring
  have hnn : (0 : ℝ) ≤ ∑ i, (w i - (∑ j, w j) / N) ^ 2 :=
    Finset.sum_nonneg (fun i _ => sq_nonneg _)
  constructor
  · nlinarith [mul_nonneg hNR.le hnn]
  · constructor
    · intro heq
      have hz : ∑ i, (w i - (∑ j, w j) / N) ^ 2 = 0 := by
        have h0 : (N : ℝ) * ∑ i, (w i - (∑ j, w j) / N) ^ 2 = 0 := by
          rw [key]; linarith
        exact (mul_eq_zero.mp h0).resolve_left hN0
      have hall : ∀ i ∈ Finset.univ, (w i - (∑ j, w j) / N) ^ 2 = 0 :=
        (Finset.sum_eq_zero_iff_of_nonneg (fun i _ => sq_nonneg _)).mp hz
      intro i j
      have hi : w i = (∑ j, w j) / N :=
        sub_eq_zero.mp ((pow_eq_zero_iff (by norm_num)).mp
          (hall i (Finset.mem_univ i)))
      have hj : w j = (∑ j, w j) / N :=
        sub_eq_zero.mp ((pow_eq_zero_iff (by norm_num)).mp
          (hall j (Finset.mem_univ j)))
      rw [hi, hj]
    · intro hconst
      have hw : ∀ i, w i = w ⟨0, hN⟩ := fun i => hconst i ⟨0, hN⟩
      have h1 : ∑ i, w i = (N : ℝ) * w ⟨0, hN⟩ := by
        rw [Finset.sum_congr rfl (fun i _ => hw i), Finset.sum_const,
          Finset.card_univ, Fintype.card_fin, nsmul_eq_mul]
      have h2 : ∑ i, w i ^ 2 = (N : ℝ) * w ⟨0, hN⟩ ^ 2 := by
        rw [Finset.sum_congr rfl (fun i _ => by rw [hw i]), Finset.sum_const,
          Finset.card_univ, Fintype.card_fin, nsmul_eq_mul]
      rw [h1, h2]
      ring

/-- Core ESS analysis: for a non-empty batch `Δ` of log-weight differences,
`exp(2*logsumexp(-Δ) - logsumexp(-2Δ)) / N` lies in `(0, 1]`, and equals 1
exactly when `Δ` is constant. -/
lemma ess_core (Δ : List ℝ) (hΔ : 1 ≤ Δ.length) :
    (Real.exp (2 * logsumexp (Δ.map (fun t => -t))
        - logsumexp (Δ.map (fun t => -(2 * t)))) / Δ.length
      ∈ Set.Ioc (0 : ℝ) 1)
    ∧ (Real.exp (2 * logsumexp (Δ.map (fun t => -t))
        - logsumexp (Δ.map (fun t => -(2 * t)))) / Δ.length = 1
      ↔ ∃ c, ∀ x ∈ Δ, x = c) := by
  have hN : 0 < Δ.length := hΔ
  have hNR : (0 : ℝ) < Δ.length := by exact_mod_cast hN
  have hsum1 : ((Δ.map (fun t => -t)).map Real.exp).sum
      = ∑ i : Fin Δ.length, Real.exp (-Δ.get i) := by
    rw [List.map_map, sum_map_get]
    simp [Function.comp]
  have hsum2 : ((Δ.map (fun t => -(2 * t))).map Real.exp).sum
      = ∑ i : Fin Δ.length, Real.exp (-Δ.get i) ^ 2 := by
    rw [List.map_map, sum_map_get]
    refine Finset.sum_congr rfl (fun i _ => ?_)
    show Real.exp (-(2 * Δ.get i)) = Real.exp (-Δ.get i) ^ 2
    rw [show -(2 * Δ.get i) = -Δ.get i + -Δ.get i by ring, Real.exp_add, sq]
  have hS1pos : (0 : ℝ) < ∑ i : Fin Δ.length, Real.exp (-Δ.get i) :=
    Finset.sum_pos (fun i _ => Real.exp_pos _) ⟨⟨0, hN⟩, Finset.mem_univ _⟩
  have hS2pos : (0 : ℝ) < ∑ i : Fin Δ.length, Real.exp (-Δ.get i) ^ 2 :=
    Finset.sum_pos (fun i _ => pow_pos (Real.exp_pos _) 2)
      ⟨⟨0, hN⟩, Finset.mem_univ _⟩
  have hE : Real.exp (2 * logsumexp (Δ.map (fun t => -t))
      - logsumexp (Δ.map (fun t => -(2 * t))))
      = (∑ i : Fin Δ.length, Real.exp (-Δ.get i)) ^ 2
        / ∑ i : Fin Δ.length, Real.exp (-Δ.get i) ^ 2 := by
    unfold logsumexp
    rw [hsum1, hsum2, Real.exp_sub, two_mul, Real.exp_add,
      Real.exp_log hS1pos, Real.exp_log hS2pos, sq]
  obtain ⟨hle, hiff⟩ :=
    sq_sum_le_card_mul_sum_sq hN (fun i => Real.exp (-Δ.get i))
  constructor
  · constructor
    · rw [hE]
      exact div_pos (div_pos (pow_pos hS1pos 2) hS2pos) hNR
    · rw [hE, div_le_one hNR, div_le_iff₀ hS2pos]
      exact hle
  · rw [hE, div_eq_one_iff_eq (ne_of_gt hNR), div_eq_iff (ne_of_gt hS2pos),
      hiff]
    constructor
    · intro hc
      refine ⟨Δ.get ⟨0, hN⟩, fun x hx => ?_⟩
      obtain ⟨i, hi⟩ := List.mem_iff_get.mp hx
      rw [← hi]
      exact neg_inj.mp (Real.exp_eq_exp.mp (hc i ⟨0, hN⟩))
    · rintro ⟨c, hc⟩ i j
      have hi : Δ.get i = c := hc _ (List.get_mem Δ i.1 i.2)
      have hj : Δ.get j = c := hc _ (List.get_mem Δ j.1 j.2)
      rw [hi, hj]

/-- C2: for every pair of same-length batches with at least one element,
`Fitter.calc_ess(logq, logp)` lies in the half-open interval `(0, 1]`, and
it equals 1 exactly when `logq - logp` is constant across the batch. -/
theorem Fitter.calc_ess_bounds (logq logp : List ℝ)
    (hlen : logq.length = logp.length) (hne : 1 ≤ logq.length) :
    Fitter.calc_ess logq logp ∈ Set.Ioc (0 : ℝ) 1
    ∧ (Fitter.calc_ess logq logp = 1
      ↔ ∃ c, ∀ x ∈ List.zipWith (fun a b => a - b) logq logp, x = c) := by
  have hΔ : 1 ≤ (List.zipWith (fun a b => a - b) logq logp).length := by
    rw [List.length_zipWith, ← hlen, min_self]
    exact hne
  exact ess_core (List.zipWith (fun a b => a - b) logq logp) hΔ

/-- Witness for C2 at the singleton batches `[0]`, `[0]`. -/
theorem calc_ess_bounds_witness :
    Fitter.calc_ess [(0 : ℝ)] [(0 : ℝ)] ∈ Set.Ioc (0 : ℝ) 1
    ∧ (Fitter.calc_ess [(0 : ℝ)] [(0 : ℝ)] = 1
      ↔ ∃ c, ∀ x ∈ List.zipWith (fun a b => a - b) [(0 : ℝ)] [(0 : ℝ)],
          x = c) :=
  Fitter.calc_ess_bounds [0] [0] rfl (by decide)

/-- Subtracting a broadcast zero changes nothing. -/
lemma zipWith_sub_replicate_zero (l : List ℝ) :
    List.zipWith (fun a b => a - b) l (List.replicate l.length 0) = l := by
  induction l with
  | nil => rfl
  | cons a t ih => simp [List.replicate_succ, ih]

/-- C8: `calc_ess` depends only on the difference of its arguments:
`calc_ess(logq - logp, 0)` (the scalar 0 broadcast over the batch) equals
`calc_ess(logq, logp)`; hence the ESS entry appended to the train history by
`_append_to_train_history`, which passes the already-differenced `logqp` with
a hardcoded 0, equals the ESS of the gathered `(logq, logp)` batch. -/
theorem Fitter.calc_ess_shift (logq logp : List ℝ)
    (_hlen : logq.length = logp.length) :
    Fitter.calc_ess (List.zipWith (fun a b => a - b) logq logp)
        (List.replicate (List.zipWith (fun a b => a - b) logq logp).length 0)
      = Fitter.calc_ess logq logp
    ∧ ∀ (est : Estimators) (h : TrainHistory),
        (Fitter._append_to_train_history est h logq logp).ess
          = h.ess ++ [Fitter.calc_ess logq logp] := by
  have h1 : Fitter.calc_ess (List.zipWith (fun a b => a - b) logq logp)
      (List.replicate (List.zipWith (fun a b => a - b) logq logp).length 0)
      = Fitter.calc_ess logq logp := by
    simp only [Fitter.calc_ess]
    rw [zipWith_sub_replicate_zero]
  exact ⟨h1, fun est h => by
    simp only [Fitter._append_to_train_history]
    rw [h1]⟩

/-- Witness for C8 at the singleton batches `[0]`, `[0]`. -/
theorem calc_ess_shift_witness :
    Fitter.calc_ess (List.zipWith (fun a b => a - b) [(0 : ℝ)] [(0 : ℝ)])
        (List.replicate
          (List.zipWith (fun a b => a - b) [(0 : ℝ)] [(0 : ℝ)]).length 0)
      = Fitter.calc_ess [(0 : ℝ)] [(0 : ℝ)]
    ∧ (Fitter._append_to_train_history est0 TrainHistory.init
        [(0 : ℝ)] [(0 : ℝ)]).ess
      = TrainHistory.init.ess ++ [Fitter.calc_ess [(0 : ℝ)] [(0 : ℝ)]] :=
  ⟨(Fitter.calc_ess_shift [0] [0] rfl).1,
   (Fitter.calc_ess_shift [0] [0] rfl).2 est0 TrainHistory.init⟩

/-- Amended C9: for every pair of same-length batches with at least two
elements whose difference `logq - logp` is constant, `calc_kl_var` returns 0.
(For a single-element batch the unbiased variance has no degrees of freedom
and the source returns NaN, modelled as `none`.) -/
theorem Fitter.calc_kl_var_of_const (logq logp : List ℝ)
    (hlen : logq.length = logp.length) (h2 : 2 ≤ logq.length) (c : ℝ)
    (hc : ∀ x ∈ List.zipWith (fun a b => a - b) logq logp, x = c) :
    Fitter.calc_kl_var logq logp = some 0 := by
  have hΔlen : (List.zipWith (fun a b => a - b) logq logp).length
      = logq.length := by
    rw [List.length_zipWith, ← hlen, min_self]
  have hpos : 0 < logq.length := lt_of_lt_of_le (by norm_num) h2
  have hne : ((List.zipWith (fun a b => a - b) logq logp).length : ℝ) ≠ 0 := by
    rw [hΔlen]
    exact_mod_cast hpos.ne'
  have hmean : mean (List.zipWith (fun a b => a - b) logq logp) = c := by
    unfold mean
    rw [List.sum_eq_card_nsmul (List.zipWith (fun a b => a - b) logq logp) c hc,
      nsmul_eq_mul, mul_div_cancel_left₀ c hne]
  have hzero : ((List.zipWith (fun a b => a - b) logq logp).map
      (fun x => (x - mean (List.zipWith (fun a b => a - b) logq logp)) ^ 2)).sum
      = 0 := by
    apply List.sum_eq_zero
    intro y hy
    obtain ⟨x, hx, rfl⟩ := List.mem_map.mp hy
    rw [hmean, hc x hx]
    ring
  have hcond : 2 ≤ (List.zipWith (fun a b => a - b) logq logp).length := by
    rw [hΔlen]; exact h2
  unfold Fitter.calc_kl_var torchVar
  rw [if_pos hcond, hzero, zero_div]

/-- Witness for the amended C9 at `logq = [1, 2]`, `logp = [0, 1]`
(constant difference 1). -/
theorem calc_kl_var_of_const_witness :
    Fitter.calc_kl_var [(1 : ℝ), 2] [(0 : ℝ), 1] = some 0 :=
  Fitter.calc_kl_var_of_const [1, 2] [0, 1] rfl (by decide) 1 (by
    intro x hx
    fin_cases hx <;> norm_num)

/-- Counterexample to C9 as stated: on the single-element batches `[0]`,
`[0]` the difference is constant, yet `calc_kl_var` is NaN (`none`), not 0,
because torch's default variance correction leaves zero degrees of freedom. -/
theorem calc_kl_var_batch_one :
    (∀ x ∈ List.zipWith (fun a b => a - b) [(0 : ℝ)] [(0 : ℝ)], x = 0)
    ∧ Fitter.calc_kl_var [(0 : ℝ)] [(0 : ℝ)] = none
    ∧ Fitter.calc_kl_var [(0 : ℝ)] [(0 : ℝ)] ≠ some 0 := by
  refine ⟨?_, ?_, ?_⟩
  · intro x hx
    fin_cases hx
    norm_num
  · simp [Fitter.calc_kl_var, torchVar]
  · simp [Fitter.calc_kl_var, torchVar]

/-- Unconditional effect of `checkpoint` on the `loss` series: the epoch's
training loss is always appended on rank 0. -/
lemma checkpoint_loss (cfg : CheckpointDict) (env : EvalEnv) (est : Estimators)
    (h : TrainHistory) (epoch : Nat) (loss : ℝ) :
    (Fitter.checkpoint cfg env est h epoch loss).loss = h.loss ++ [loss] := by
  by_cases hev : is_eval_epoch cfg epoch <;>
    simp [Fitter.checkpoint, Fitter._append_to_train_history, hev]

/-- On an evaluation epoch, `checkpoint` is the history with the loss
appended, then passed through `_append_to_train_history` on the gathered
evaluation batch of size `print_batch_size / nranks`. -/
lemma checkpoint_eval_eq (cfg : CheckpointDict) (env : EvalEnv)
    (est : Estimators) (h : TrainHistory) (epoch : Nat) (loss : ℝ)
    (hev : is_eval_epoch cfg epoch) :
    Fitter.checkpoint cfg env est h epoch loss
      = Fitter._append_to_train_history est { h with loss := h.loss ++ [loss] }
          (env.sampler (cfg.print_batch_size / env.nranks)).1
          (env.sampler (cfg.print_batch_size / env.nranks)).2 := by
  simp [Fitter.checkpoint, hev]

/-- Off evaluation epochs, `checkpoint` only appends the loss. -/
lemma checkpoint_not_eval_eq (cfg : CheckpointDict) (env : EvalEnv)
    (est : Estimators) (h : TrainHistory) (epoch : Nat) (loss : ℝ)
    (hev : ¬ is_eval_epoch cfg epoch) :
    Fitter.checkpoint cfg env est h epoch loss
      = { h with loss := h.loss ++ [loss] } := by
  simp [Fitter.checkpoint, hev]

/-- Series lengths after `n` epochs: the `loss` series has one entry per
epoch, the five evaluation series one entry per evaluation epoch. -/
lemma run_training_lengths (cfg : CheckpointDict) (env : EvalEnv)
    (est : Estimators) (losses : Nat → ℝ) (n : Nat) :
    (Fitter.run_training cfg env est losses n).loss.length = n
    ∧ (Fitter.run_training cfg env est losses n).logqp.length
        = num_eval_epochs cfg n
    ∧ (Fitter.run_training cfg env est losses n).logz.length
        = num_eval_epochs cfg n
    ∧ (Fitter.run_training cfg env est losses n).ess.length
        = num_eval_epochs cfg n
    ∧ (Fitter.run_training cfg env est losses n).rho.length
        = num_eval_epochs cfg n
    ∧ (Fitter.run_training cfg env est losses n).accept_rate.length
        = num_eval_epochs cfg n := by
  induction n with
  | zero => simp [Fitter.run_training, TrainHistory.init, num_eval_epochs]
  | succ n ih =>
      obtain ⟨hl, h1, h2, h3, h4, h5⟩ := ih
      by_cases hev : is_eval_epoch cfg (n + 1)
      · simp only [Fitter.run_training,
          checkpoint_eval_eq cfg env est _ (n + 1) _ hev,
          Fitter._append_to_train_history, num_eval_epochs, if_pos hev]
        simp [hl, h1, h2, h3, h4, h5]
      · simp only [Fitter.run_training,
          checkpoint_not_eval_eq cfg env est _ (n + 1) _ hev,
          num_eval_epochs, if_neg hev]
        simp [hl, h1, h2, h3, h4, h5]

/-- Amended C3: on the coordinating rank, after running epochs `1..n`, the
five evaluation series (`logqp`, `logz`, `ess`, `rho`, `accept_rate`) all
have length `num_eval_epochs cfg n` — one entry per evaluation event, in
chronological order — while the `loss` series has one entry per epoch
(length `n`); entries are only ever appended at the end: each epoch appends
exactly one loss entry, and appends exactly one entry to each evaluation
series when it is an evaluation epoch, leaving them unchanged otherwise. -/
theorem Fitter.train_history_invariant (cfg : CheckpointDict) (env : EvalEnv)
    (est : Estimators) (losses : Nat → ℝ) (n : Nat) :
    ((Fitter.run_training cfg env est losses n).loss.length = n
     ∧ (Fitter.run_training cfg env est losses n).logqp.length
         = num_eval_epochs cfg n
     ∧ (Fitter.run_training cfg env est losses n).logz.length
         = num_eval_epochs cfg n
     ∧ (Fitter.run_training cfg env est losses n).ess.length
         = num_eval_epochs cfg n
     ∧ (Fitter.run_training cfg env est losses n).rho.length
         = num_eval_epochs cfg n
     ∧ (Fitter.run_training cfg env est losses n).accept_rate.length
         = num_eval_epochs cfg n)
    ∧ (Fitter.run_training cfg env est losses (n + 1)).loss
        = (Fitter.run_training cfg env est losses n).loss ++ [losses (n + 1)]
    ∧ (is_eval_epoch cfg (n + 1) →
        ∃ e1 e2 e3 e4 e5,
          (Fitter.run_training cfg env est losses (n + 1)).logqp
            = (Fitter.run_training cfg env est losses n).logqp ++ [e1]
          ∧ (Fitter.run_training cfg env est losses (n + 1)).logz
            = (Fitter.run_training cfg env est losses n).logz ++ [e2]
          ∧ (Fitter.run_training cfg env est losses (n + 1)).ess
            = (Fitter.run_training cfg env est losses n).ess ++ [e3]
          ∧ (Fitter.run_training cfg env est losses (n + 1)).rho
            = (Fitter.run_training cfg env est losses n).rho ++ [e4]
          ∧ (Fitter.run_training cfg env est losses (n + 1)).accept_rate
            = (Fitter.run_training cfg env est losses n).accept_rate ++ [e5])
    ∧ (¬ is_eval_epoch cfg (n + 1) →
        (Fitter.run_training cfg env est losses (n + 1)).logqp
          = (Fitter.run_training cfg env est losses n).logqp
        ∧ (Fitter.run_training cfg env est losses (n + 1)).logz
          = (Fitter.run_training cfg env est losses n).logz
        ∧ (Fitter.run_training cfg env est losses (n + 1)).ess
          = (Fitter.run_training cfg env est losses n).ess
        ∧ (Fitter.run_training cfg env est losses (n + 1)).rho
          = (Fitter.run_training cfg env est losses n).rho
        ∧ (Fitter.run_training cfg env est losses (n + 1)).accept_rate
          = (Fitter.run_training cfg env est losses n).accept_rate) := by
  refine ⟨run_training_lengths cfg env est losses n, ?_, ?_, ?_⟩
  · simp only [Fitter.run_training]
    exact checkpoint_loss cfg env est _ (n + 1) _
  · intro hev
    simp only [Fitter.run_training,
      checkpoint_eval_eq cfg env est _ (n + 1) _ hev]
    exact ⟨_, _, _, _, _, rfl, rfl, rfl, rfl, rfl⟩
  · intro hev
    simp [Fitter.run_training,
      checkpoint_not_eval_eq cfg env est _ (n + 1) _ hev]

/-- Witness for the amended C3 at a concrete configuration after two epochs
with stride 3. -/
theorem train_history_invariant_witness :
    ((Fitter.run_training cfg0 env0 est0 (fun _ => 0) 2).loss.length = 2
     ∧ (Fitter.run_training cfg0 env0 est0 (fun _ => 0) 2).logqp.length
         = num_eval_epochs cfg0 2
     ∧ (Fitter.run_training cfg0 env0 est0 (fun _ => 0) 2).logz.length
         = num_eval_epochs cfg0 2
     ∧ (Fitter.run_training cfg0 env0 est0 (fun _ => 0) 2).ess.length
         = num_eval_epochs cfg0 2
     ∧ (Fitter.run_training cfg0 env0 est0 (fun _ => 0) 2).rho.length
         = num_eval_epochs cfg0 2
     ∧ (Fitter.run_training cfg0 env0 est0 (fun _ => 0) 2).accept_rate.length
         = num_eval_epochs cfg0 2)
    ∧ (Fitter.run_training cfg0 env0 est0 (fun _ => 0) 3).loss
        = (Fitter.run_training cfg0 env0 est0 (fun _ => 0) 2).loss ++ [(0 : ℝ)]
    ∧ (is_eval_epoch cfg0 3 →
        ∃ e1 e2 e3 e4 e5,
          (Fitter.run_training cfg0 env0 est0 (fun _ => 0) 3).logqp
            = (Fitter.run_training cfg0 env0 est0 (fun _ => 0) 2).logqp ++ [e1]
          ∧ (Fitter.run_training cfg0 env0 est0 (fun _ => 0) 3).logz
            = (Fitter.run_training cfg0 env0 est0 (fun _ => 0) 2).logz ++ [e2]
          ∧ (Fitter.run_training cfg0 env0 est0 (fun _ => 0) 3).ess
            = (Fitter.run_training cfg0 env0 est0 (fun _ => 0) 2).ess ++ [e3]
          ∧ (Fitter.run_training cfg0 env0 est0 (fun _ => 0) 3).rho
            = (Fitter.run_training cfg0 env0 est0 (fun _ => 0) 2).rho ++ [e4]
          ∧ (Fitter.run_training cfg0 env0 est0 (fun _ => 0) 3).accept_rate
            = (Fitter.run_training cfg0 env0 est0 (fun _ => 0) 2).accept_rate
              ++ [e5])
    ∧ (¬ is_eval_epoch cfg0 3 →
        (Fitter.run_training cfg0 env0 est0 (fun _ => 0) 3).logqp
          = (Fitter.run_training cfg0 env0 est0 (fun _ => 0) 2).logqp
        ∧ (Fitter.run_training cfg0 env0 est0 (fun _ => 0) 3).logz
          = (Fitter.run_training cfg0 env0 est0 (fun _ => 0) 2).logz
        ∧ (Fitter.run_training cfg0 env0 est0 (fun _ => 0) 3).ess
          = (Fitter.run_training cfg0 env0 est0 (fun _ => 0) 2).ess
        ∧ (Fitter.run_training cfg0 env0 est0 (fun _ => 0) 3).rho
          = (Fitter.run_training cfg0 env0 est0 (fun _ => 0) 2).rho
        ∧ (Fitter.run_training cfg0 env0 est0 (fun _ => 0) 3).accept_rate
          = (Fitter.run_training cfg0 env0 est0 (fun _ => 0) 2).accept_rate) :=
  Fitter.train_history_invariant cfg0 env0 est0 (fun _ => 0) 2

/-- Counterexample to C3 as stated: with print stride 3, after two epochs
the `loss` series has 2 entries while the `ess` series has only 1 (epoch 2
is not an evaluation epoch), so the six series do not all have equal
length. -/
theorem train_history_unequal_lengths :
    (Fitter.run_training cfg0 env0 est0 (fun _ => 0) 2).loss.length = 2
    ∧ (Fitter.run_training cfg0 env0 est0 (fun _ => 0) 2).ess.length = 1
    ∧ (Fitter.run_training cfg0 env0 est0 (fun _ => 0) 2).loss.length
        ≠ (Fitter.run_training cfg0 env0 est0 (fun _ => 0) 2).ess.length := by
  have hev1 : is_eval_epoch cfg0 1 := Or.inl rfl
  have hev2 : ¬ is_eval_epoch cfg0 2 := by decide
  have e2 : Fitter.run_training cfg0 env0 est0 (fun _ => 0) 2
      = Fitter.checkpoint cfg0 env0 est0
          (Fitter.checkpoint cfg0 env0 est0 TrainHistory.init 1 0) 2 0 := rfl
  rw [e2, checkpoint_not_eval_eq cfg0 env0 est0 _ 2 0 hev2,
    checkpoint_eval_eq cfg0 env0 est0 _ 1 0 hev1]
  simp [Fitter._append_to_train_history, TrainHistory.init]

/-- Amended C6: when the device count `nranks` exceeds the configured
print-batch-size, the integer floor division makes the evaluation batch size
0, and on an evaluation epoch `checkpoint` silently proceeds to draw the
evaluation sample with batch size 0; no error is raised (no
ConfigurationError exists in the code). -/
theorem Fitter.checkpoint_degenerate_batch (cfg : CheckpointDict)
    (env : EvalEnv) (hlt : cfg.print_batch_size < env.nranks) :
    cfg.print_batch_size / env.nranks = 0
    ∧ ∀ (est : Estimators) (h : TrainHistory) (epoch : Nat) (loss : ℝ),
        is_eval_epoch cfg epoch →
          Fitter.checkpoint cfg env est h epoch loss
            = Fitter._append_to_train_history est
                { h with loss := h.loss ++ [loss] }
                (env.sampler 0).1 (env.sampler 0).2 := by
  have hdiv : cfg.print_batch_size / env.nranks = 0 := Nat.div_eq_of_lt hlt
  refine ⟨hdiv, fun est h epoch loss hev => ?_⟩
  rw [checkpoint_eval_eq cfg env est h epoch loss hev, hdiv]

/-- Witness for the amended C6 with 2048 devices and the default
print-batch-size of 1024, at evaluation epoch 1. -/
theorem checkpoint_degenerate_batch_witness :
    Fitter.init_checkpoint_dict.print_batch_size / env1.nranks = 0
    ∧ Fitter.checkpoint Fitter.init_checkpoint_dict env1 est0
        TrainHistory.init 1 0
      = Fitter._append_to_train_history est0
          { TrainHistory.init with loss := TrainHistory.init.loss ++ [0] }
          (env1.sampler 0).1 (env1.sampler 0).2 :=
  ⟨(Fitter.checkpoint_degenerate_batch Fitter.init_checkpoint_dict env1
      (by decide)).1,
   (Fitter.checkpoint_degenerate_batch Fitter.init_checkpoint_dict env1
      (by decide)).2 est0 TrainHistory.init 1 0 (Or.inl rfl)⟩

/-- Counterexample to C6 as stated: with 2048 devices and print-batch-size
1024, the evaluation batch size floors to 0, yet the checkpoint step
completes and appends an evaluation entry (here the `ess` series grows to
length 1) instead of failing before drawing the evaluation sample. -/
theorem checkpoint_no_configuration_error :
    Fitter.init_checkpoint_dict.print_batch_size / env1.nranks = 0
    ∧ (Fitter.checkpoint Fitter.init_checkpoint_dict env1 est0
        TrainHistory.init 1 0).ess.length = 1 := by
  constructor
  · rfl
  · have hev : is_eval_epoch Fitter.init_checkpoint_dict 1 := Or.inl rfl
    rw [checkpoint_eval_eq Fitter.init_checkpoint_dict env1 est0
      TrainHistory.init 1 0 hev]
    simp [Fitter._append_to_train_history, TrainHistory.init]

end

end Normflow
